import Mathlib

/-!
# Verification of scikit-mobility stop detection (`skmob/preprocessing/detection.py`)

This file shallowly embeds the stop-detection module of scikit-mobility:
the single-pass stop-segmentation state machine `_stops_array`, its wrapper
`_stops_trajectory`, and the top-level `stops` parameter resolution.

Reals (Python floats) are modelled as rationals `ℚ`; timestamps are rationals
measured in seconds.  The external great-circle distance function
`gislib.getDistance` is not part of the embedded source: the algorithm is
parametric in a distance function `Dist`, and theorems assume only the
contract the specification states for it (non-negativity / zero on equal
points) where needed.
-/

namespace SkmobDetection

/-- A trajectory point: latitude, longitude, timestamp (seconds), and the
remaining columns of the row (`lat_lng_dtime_other[k][3:]`), carried through
unchanged. -/
structure RawPoint where
  lat : ℚ
  lon : ℚ
  t : ℚ
  extra : List ℚ
  deriving DecidableEq, Repr

/-- Configuration of the core detector `_stops_array`:
`(stop_radius, minutes_for_a_stop, leaving_time, no_data_for_minutes,
min_speed_kmh)`. -/
structure StopCfg where
  stopRadius : ℚ
  minutesForAStop : ℚ
  leavingTime : Bool
  noDataForMinutes : ℚ
  minSpeedKmh : Option ℚ
  deriving DecidableEq, Repr

/-- One emitted stop row: `[median(sum_lat), median(sum_lon), t_0] + extra_cols`. -/
structure StopRec where
  lat : ℚ
  lon : ℚ
  arrival : ℚ
  extra : List ℚ
  deriving DecidableEq, Repr

/-- The loop state of `_stops_array`: the anchor `(lat_0, lon_0, t_0)`, the
parallel visited sequences `sum_lat, sum_lon, sum_t`, the speed samples
`speeds_kmh`, the (dead) counter `count`, and the two output accumulators
`stops` and `leaving_times`. -/
structure DetState where
  lat0 : ℚ
  lon0 : ℚ
  t0 : ℚ
  sumLat : List ℚ
  sumLon : List ℚ
  sumT : List ℚ
  speeds : List ℚ
  countN : ℕ
  stops : List StopRec
  leavingTimes : List ℚ
  deriving DecidableEq, Repr

/-- The type of the distance measure `gislib.getDistance`, taking
`lat1 lon1 lat2 lon2` to a distance in km.  The function itself lives outside
the embedded source file; the specification states only its contract
(deterministic, non-negative great-circle distance). -/
def Dist : Type := ℚ → ℚ → ℚ → ℚ → ℚ

/-- Modelled from the spec: `utils.diff_seconds(t0, t1)` (module
`skmob.utils.utils` is not under `src/`), the elapsed time in seconds from
`t0` to `t1`. -/
def diff_seconds (t0 t1 : ℚ) : ℚ := t1 - t0

/-- Modelled from the spec: `np.median` (external library), the median of a
sequence — middle element of the sorted sequence for odd length, mean of the
two middle elements for even length. -/
def median (l : List ℚ) : ℚ :=
  let s := l.insertionSort (· ≤ ·)
  if l.length % 2 = 1 then s.getD (l.length / 2) 0
  else (s.getD (l.length / 2 - 1) 0 + s.getD (l.length / 2) 0) / 2

/-- A concrete distance function satisfying the spec's contract for
`DistanceMeasure` (non-negative, zero on coincident points), used to
instantiate the detector on concrete inputs. -/
def taxiDist : Dist := fun lat1 lon1 lat2 lon2 =>
  (if lat1 ≤ lat2 then lat2 - lat1 else lat1 - lat2) +
    (if lon1 ≤ lon2 then lon2 - lon1 else lon1 - lon2)

/-- The speed sample `Dr / Dt * 60.` of lines 137-140, with the
`ZeroDivisionError` handler: when `Dt` is exactly zero the sample is `0`. -/
def speedSample (Dr Dt : ℚ) : ℚ := if Dt = 0 then 0 else Dr / Dt * 60

/-- The backward scan of lines 150-153:
`j = 1` then `for j in range(1, len(speeds_kmh)): if speeds_kmh[-j] < min_speed_kmh: break`.
Its value is the first `j ∈ [1, len-1]` with `speeds_kmh[-j] < th` if the
loop breaks, the final loop value `len - 1` if the loop exhausts (possible
only when `len ≥ 2`), and the initial `1` when the range is empty. -/
def pyScan (speeds : List ℚ) (th : ℚ) : ℕ :=
  match (List.range' 1 (speeds.length - 1)).find?
      (fun j => decide (speeds.getD (speeds.length - j) 0 < th)) with
  | some j => j
  | none => if 2 ≤ speeds.length then speeds.length - 1 else 1

/-- Lines 146-159: the departure-time estimate and the (possibly trimmed)
visited latitude/longitude sequences.  Returns
`(estimated_final_t, sum_lat, sum_lon)` as they stand after the
`min_speed_kmh` block, just before the emission test of line 161. -/
def leavingEstimate (minSpeed : Option ℚ) (t : ℚ)
    (speeds sumT sumLat sumLon : List ℚ) : ℚ × List ℚ × List ℚ :=
  match minSpeed with
  | none => (t, sumLat, sumLon)
  | some th =>
    let j := pyScan speeds th
    if j = 1 then (t, sumLat, sumLon)
    else (sumT.getD (sumT.length - j) 0,
          sumLat.take (sumLat.length - j),
          sumLon.take (sumLon.length - j))

/-- The state reset repeated at lines 130-133, 167-170 and 173-176:
`count = 0; lat_0, lon_0, t_0 = lat, lon, t; sum_* = []; speeds_kmh = []`. -/
def resetAt (p : RawPoint) (s : DetState) : DetState :=
  { s with countN := 0, lat0 := p.lat, lon0 := p.lon, t0 := p.t,
           sumLat := [], sumLon := [], sumT := [], speeds := [] }

/-- Lines 178-181, executed at the bottom of every iteration:
`count += 1; sum_lat += [lat]; sum_lon += [lon]; sum_t += [t]`. -/
def appendPoint (p : RawPoint) (s : DetState) : DetState :=
  { s with countN := s.countN + 1,
           sumLat := s.sumLat ++ [p.lat],
           sumLon := s.sumLon ++ [p.lon],
           sumT := s.sumT ++ [p.t] }

/-- Lines 144-170: the confirmed-stop branch (`Dt > minutes_for_a_stop`):
estimate the leaving time, trim, emit the stop row (and leaving time, when
`leaving_time` is set) if the trimmed latitude list is non-empty, then reset
the accumulator at `p`. -/
def confirmStop (cfg : StopCfg) (prev p : RawPoint) (s2 : DetState) : DetState :=
  let r := leavingEstimate cfg.minSpeedKmh p.t s2.speeds s2.sumT s2.sumLat s2.sumLon
  resetAt p <|
    if 0 < r.2.1.length then
      { s2 with
        stops := s2.stops ++ [⟨median r.2.1, median r.2.2, s2.t0, prev.extra⟩],
        leavingTimes :=
          if cfg.leavingTime then s2.leavingTimes ++ [r.1] else s2.leavingTimes }
    else s2

/-- One iteration of the `for i in range(lendata)` loop of `_stops_array`
(lines 124-181), processing the current point `p = lat_lng_dtime_other[i+1]`
with raw predecessor `prev = lat_lng_dtime_other[i]`.  Note that the gap
branch (lines 128-133) does not `continue`: execution falls through to the
speed computation and radius test with the freshly reset accumulator. -/
def stopsStep (cfg : StopCfg) (d : Dist) (prev p : RawPoint) (s : DetState) : DetState :=
  let s1 := if diff_seconds prev.t p.t / 60 > cfg.noDataForMinutes then resetAt p s else s
  let Dt := diff_seconds s1.t0 p.t / 60
  let Dr := d s1.lat0 s1.lon0 p.lat p.lon
  let s2 := { s1 with speeds := s1.speeds ++ [speedSample Dr Dt] }
  let s3 :=
    if Dr > cfg.stopRadius then
      if Dt > cfg.minutesForAStop then confirmStop cfg prev p s2
      else resetAt p s2
    else s2
  appendPoint p s3

/-- The loop of `_stops_array`, threading the raw predecessor point. -/
def stopsLoop (cfg : StopCfg) (d : Dist) : RawPoint → List RawPoint → DetState → DetState
  | _, [], s => s
  | prev, p :: rest, s => stopsLoop cfg d p rest (stopsStep cfg d prev p s)

/-- Lines 117-121: the initial state, seeded with the first point. -/
def initState (p : RawPoint) : DetState :=
  { lat0 := p.lat, lon0 := p.lon, t0 := p.t,
    sumLat := [p.lat], sumLon := [p.lon], sumT := [p.t],
    speeds := [], countN := 1, stops := [], leavingTimes := [] }

/-- `_stops_array` (lines 106-183).  On an empty input the Python source
raises `IndexError` at line 117 (`lat_lng_dtime_other[0]`), modelled as
`none`; otherwise it returns `(stops, leaving_times)`. -/
def stops_array (cfg : StopCfg) (d : Dist) (pts : List RawPoint) :
    Option (List StopRec × List ℚ) :=
  match pts with
  | [] => none
  | p :: rest =>
    let s := stopsLoop cfg d p rest (initState p)
    some (s.stops, s.leavingTimes)

/-- The per-trajectory output of `_stops_trajectory`: the stop rows and, when
`leaving_time` is set, the attached `leaving_datetime` column (lines 100-102). -/
structure StopsOut where
  rows : List StopRec
  leavingCol : Option (List ℚ)
  deriving DecidableEq, Repr

/-- `_stops_trajectory` (lines 84-103): run `_stops_array` on the point
matrix and attach the `leaving_datetime` column exactly when `leaving_time`
is set.  The dataframe/column bookkeeping around it keeps rows unchanged. -/
def stops_trajectory (cfg : StopCfg) (d : Dist) (pts : List RawPoint) :
    Option StopsOut :=
  (stops_array cfg d pts).map fun r =>
    ⟨r.1, if cfg.leavingTime then some r.2 else none⟩

/-- The keyword arguments of the top-level `stops` function (after
defaulting). -/
structure DetArgs where
  stopRadiusFactor : ℚ
  minutesForAStop : ℚ
  spatialRadiusKm : ℚ
  leavingTime : Bool
  noDataForMinutes : ℚ
  minSpeedKmh : Option ℚ
  deriving DecidableEq, Repr

/-- The `parameters` attribute of a TrajDataFrame, restricted to the keys
this module reads or writes: the upstream compression radius
`parameters[COMPRESSION_PARAMS]['spatial_radius_km']` (absent keys raise the
`KeyError` caught at line 65, modelled by `none`) and the
`DETECTION_PARAMS` entry written at line 80. -/
structure TrajParams where
  compressionRadius : Option ℚ
  detection : Option DetArgs
  deriving DecidableEq, Repr

/-- An input TrajDataFrame: its point rows (already sorted by uid and
datetime, the precondition enforced at line 48) and its parameters. -/
structure TrajDF where
  points : List RawPoint
  params : TrajParams
  deriving DecidableEq, Repr

/-- Lines 63-67: the effective stop radius — the upstream compression radius
when recorded, otherwise the explicit `spatial_radius_km` argument —
multiplied by `stop_radius_factor`. -/
def resolveRadius (explicitRadius : ℚ) (params : TrajParams) : ℚ :=
  match params.compressionRadius with
  | some r => r
  | none => explicitRadius

/-- The configuration handed to `_stops_trajectory` by `stops`
(lines 71-77). -/
def argsToCfg (a : DetArgs) (stopRadius : ℚ) : StopCfg :=
  ⟨stopRadius, a.minutesForAStop, a.leavingTime, a.noDataForMinutes, a.minSpeedKmh⟩

/-- The output of `stops`: the detected rows, the optional departure column,
and the parameters carried over from the input with `DETECTION_PARAMS` set
(lines 79-80). -/
structure StopsOutDF where
  rows : List StopRec
  leavingCol : Option (List ℚ)
  params : TrajParams
  deriving DecidableEq, Repr

/-- The top-level `stops` (lines 7-81) on the single-partition path
(`len(groupby) == 0`; the multi-group path applies `_stops_trajectory`
per partition through pandas and is outside the embedded core).  The
`arguments` dictionary of lines 51-53 is captured before the radius override
of line 64, so it records the arguments as supplied. -/
def stops (a : DetArgs) (d : Dist) (tdf : TrajDF) : Option StopsOutDF :=
  let stop_radius := resolveRadius a.spatialRadiusKm tdf.params * a.stopRadiusFactor
  (stops_trajectory (argsToCfg a stop_radius) d tdf.points).map fun o =>
    ⟨o.rows, o.leavingCol, { tdf.params with detection := some a }⟩

/-- Specification-level segmentation, following the spec's words for the
transition rule with `min_speed_kmh` unset (§4.2 of the design document):
maintain an anchor and the run of points accepted within `stop_radius` of
it; a data gap discards the run and re-anchors; a radius-exiting point
closes the run, emitting a `(StopRecord, DepartureEstimate)` pair exactly
when the elapsed time from the anchor to the exiting point strictly exceeds
`minutes_for_a_stop` (the departure estimate being the exiting point's
timestamp); an accumulator still open at end of sequence is discarded. -/
def specRuns (cfg : StopCfg) (d : Dist) :
    RawPoint → RawPoint → List ℚ → List ℚ → List RawPoint → List (StopRec × ℚ)
  | _, _, _, _, [] => []
  | anchor, prev, lats, lons, p :: rest =>
    if diff_seconds prev.t p.t / 60 > cfg.noDataForMinutes then
      specRuns cfg d p p [p.lat] [p.lon] rest
    else if d anchor.lat anchor.lon p.lat p.lon > cfg.stopRadius then
      (if diff_seconds anchor.t p.t / 60 > cfg.minutesForAStop then
        [(⟨median lats, median lons, anchor.t, prev.extra⟩, p.t)]
      else []) ++ specRuns cfg d p p [p.lat] [p.lon] rest
    else
      specRuns cfg d anchor p (lats ++ [p.lat]) (lons ++ [p.lon]) rest

/-! ## Characterization of one loop iteration, branch by branch -/

/-- Gap branch (lines 128-133) with fall-through: the accumulator is
discarded and re-anchored at `p`, but — because the loop body does not
`continue` — a speed sample `0` (from `Dt = 0`) is appended for `p`, the
radius test runs with `Dr = d(p,p) = 0` and accepts `p`, and `p` is appended
to the fresh sequences. -/
theorem stopsStep_gap (cfg : StopCfg) (d : Dist) (prev p : RawPoint) (s : DetState)
    (hgap : diff_seconds prev.t p.t / 60 > cfg.noDataForMinutes)
    (hd : d p.lat p.lon p.lat p.lon = 0)
    (hr : 0 ≤ cfg.stopRadius) :
    stopsStep cfg d prev p s =
      { s with lat0 := p.lat, lon0 := p.lon, t0 := p.t,
               sumLat := [p.lat], sumLon := [p.lon], sumT := [p.t],
               speeds := [0], countN := 1 } := by
  have h0 : diff_seconds p.t p.t / 60 = (0 : ℚ) := by simp [diff_seconds]
  simp only [stopsStep, if_pos hgap, resetAt, appendPoint, h0, hd, speedSample,
    if_pos rfl, gt_iff_lt, if_neg (not_lt.mpr hr), List.nil_append, if_true,
    Nat.zero_add]

/-- Within-radius branch (step falls to line 178): the speed sample is
appended and `p` is accepted into the accumulator; the anchor does not
move and nothing is emitted. -/
theorem stopsStep_accept (cfg : StopCfg) (d : Dist) (prev p : RawPoint) (s : DetState)
    (hgap : ¬ diff_seconds prev.t p.t / 60 > cfg.noDataForMinutes)
    (hDr : ¬ d s.lat0 s.lon0 p.lat p.lon > cfg.stopRadius) :
    stopsStep cfg d prev p s =
      { s with
        speeds := s.speeds ++
          [speedSample (d s.lat0 s.lon0 p.lat p.lon) (diff_seconds s.t0 p.t / 60)],
        countN := s.countN + 1,
        sumLat := s.sumLat ++ [p.lat],
        sumLon := s.sumLon ++ [p.lon],
        sumT := s.sumT ++ [p.t] } := by
  simp only [stopsStep, appendPoint, if_neg hgap, if_neg hDr]

/-- Rejected-candidate branch (lines 171-176): radius exit with
`Dt <= minutes_for_a_stop`; the accumulator is discarded and re-anchored at
`p` and nothing is emitted. -/
theorem stopsStep_reject (cfg : StopCfg) (d : Dist) (prev p : RawPoint) (s : DetState)
    (hgap : ¬ diff_seconds prev.t p.t / 60 > cfg.noDataForMinutes)
    (hDr : d s.lat0 s.lon0 p.lat p.lon > cfg.stopRadius)
    (hDt : ¬ diff_seconds s.t0 p.t / 60 > cfg.minutesForAStop) :
    stopsStep cfg d prev p s =
      { s with lat0 := p.lat, lon0 := p.lon, t0 := p.t,
               sumLat := [p.lat], sumLon := [p.lon], sumT := [p.t],
               speeds := [], countN := 1 } := by
  simp only [stopsStep, resetAt, appendPoint, if_neg hgap, if_pos hDr, if_neg hDt,
    List.nil_append, Nat.zero_add]

/-- Confirmed-stop branch (lines 143-170): radius exit with
`Dt > minutes_for_a_stop`.  The leaving estimate and trimmed sequences are
those of `leavingEstimate` applied to the speed sequence with `p`'s sample
appended; the stop row (and, when `leaving_time` is set, the estimate) is
emitted exactly when the trimmed latitude list is non-empty; the
accumulator is then re-anchored at `p`. -/
theorem stopsStep_confirm (cfg : StopCfg) (d : Dist) (prev p : RawPoint) (s : DetState)
    (hgap : ¬ diff_seconds prev.t p.t / 60 > cfg.noDataForMinutes)
    (hDr : d s.lat0 s.lon0 p.lat p.lon > cfg.stopRadius)
    (hDt : diff_seconds s.t0 p.t / 60 > cfg.minutesForAStop)
    (r : ℚ × List ℚ × List ℚ)
    (hres : r = leavingEstimate cfg.minSpeedKmh p.t
      (s.speeds ++
        [speedSample (d s.lat0 s.lon0 p.lat p.lon) (diff_seconds s.t0 p.t / 60)])
      s.sumT s.sumLat s.sumLon) :
    stopsStep cfg d prev p s =
      { s with lat0 := p.lat, lon0 := p.lon, t0 := p.t,
               sumLat := [p.lat], sumLon := [p.lon], sumT := [p.t],
               speeds := [], countN := 1,
               stops := if 0 < r.2.1.length then
                   s.stops ++ [⟨median r.2.1, median r.2.2, s.t0, prev.extra⟩]
                 else s.stops,
               leavingTimes := if 0 < r.2.1.length then
                   (if cfg.leavingTime then s.leavingTimes ++ [r.1] else s.leavingTimes)
                 else s.leavingTimes } := by
  simp only [stopsStep, confirmStop, resetAt, appendPoint, if_neg hgap, if_pos hDr,
    if_pos hDt, ← hres, List.nil_append, Nat.zero_add]
  by_cases hlen : 0 < r.2.1.length
  · simp only [if_pos hlen]
  · simp only [if_neg hlen]

/-- With `min_speed_kmh` unset, lines 147-148: the estimate is `p`'s
timestamp and the visited sequences are not trimmed. -/
theorem leavingEstimate_none (t : ℚ) (speeds sumT sumLat sumLon : List ℚ) :
    leavingEstimate none t speeds sumT sumLat sumLon = (t, sumLat, sumLon) := rfl

/-- Master correspondence: with `min_speed_kmh` unset, the detector loop run
from a live accumulator emits exactly the stop/departure pairs of the
specification-level segmentation `specRuns`, appended to what was already
emitted.  Requires the distance contract (`d(p,p) = 0`) and a non-negative
stop radius so that the gap fall-through cannot itself exit. -/
theorem stopsLoop_specRuns (cfg : StopCfg) (d : Dist)
    (hms : cfg.minSpeedKmh = none)
    (hd : ∀ la lo, d la lo la lo = 0)
    (hr : 0 ≤ cfg.stopRadius) :
    ∀ (rest : List RawPoint) (prev : RawPoint) (s : DetState) (a : RawPoint),
      a.lat = s.lat0 → a.lon = s.lon0 → a.t = s.t0 → s.sumLat ≠ [] →
      (stopsLoop cfg d prev rest s).stops
          = s.stops ++ (specRuns cfg d a prev s.sumLat s.sumLon rest).map Prod.fst
        ∧ (stopsLoop cfg d prev rest s).leavingTimes
          = s.leavingTimes ++
            (if cfg.leavingTime then
              (specRuns cfg d a prev s.sumLat s.sumLon rest).map Prod.snd
            else []) := by
  intro rest
  induction rest with
  | nil =>
    intro prev s a _ _ _ _
    simp [stopsLoop, specRuns]
  | cons p rest ih =>
    intro prev s a hla hlo ht hne
    simp only [stopsLoop, specRuns]
    by_cases hgap : diff_seconds prev.t p.t / 60 > cfg.noDataForMinutes
    · rw [if_pos hgap]
      have hstep := stopsStep_gap cfg d prev p s hgap (hd p.lat p.lon) hr
      obtain ⟨h1, h2⟩ := ih p (stopsStep cfg d prev p s) p
        (by rw [hstep]) (by rw [hstep]) (by rw [hstep]) (by rw [hstep]; simp)
      rw [h1, h2, hstep]
      simp
    · rw [if_neg hgap]
      by_cases hDr : d s.lat0 s.lon0 p.lat p.lon > cfg.stopRadius
      · rw [if_pos (show d a.lat a.lon p.lat p.lon > cfg.stopRadius by
          rw [hla, hlo]; exact hDr)]
        by_cases hDt : diff_seconds s.t0 p.t / 60 > cfg.minutesForAStop
        · rw [if_pos (show diff_seconds a.t p.t / 60 > cfg.minutesForAStop by
            rw [ht]; exact hDt)]
          have hstep := stopsStep_confirm cfg d prev p s hgap hDr hDt
            (p.t, s.sumLat, s.sumLon) (by rw [hms, leavingEstimate_none])
          have hlen : 0 < s.sumLat.length := List.length_pos.mpr hne
          obtain ⟨h1, h2⟩ := ih p (stopsStep cfg d prev p s) p
            (by rw [hstep]) (by rw [hstep]) (by rw [hstep]) (by rw [hstep]; simp)
          rw [h1, h2, hstep]
          constructor
          · simp [hlen, ht]
          · by_cases hlt : cfg.leavingTime <;> simp [hlen, hlt]
        · rw [if_neg (show ¬ diff_seconds a.t p.t / 60 > cfg.minutesForAStop by
            rw [ht]; exact hDt)]
          have hstep := stopsStep_reject cfg d prev p s hgap hDr hDt
          obtain ⟨h1, h2⟩ := ih p (stopsStep cfg d prev p s) p
            (by rw [hstep]) (by rw [hstep]) (by rw [hstep]) (by rw [hstep]; simp)
          rw [h1, h2, hstep]
          constructor
          · simp
          · by_cases hlt : cfg.leavingTime <;> simp [hlt]
      · rw [if_neg (show ¬ d a.lat a.lon p.lat p.lon > cfg.stopRadius by
          rw [hla, hlo]; exact hDr)]
        have hstep := stopsStep_accept cfg d prev p s hgap hDr
        obtain ⟨h1, h2⟩ := ih p (stopsStep cfg d prev p s) a
          (by rw [hstep]; exact hla) (by rw [hstep]; exact hlo)
          (by rw [hstep]; exact ht) (by rw [hstep]; simp)
        rw [h1, h2, hstep]
        constructor <;> simp
/-! ## Characterization of the backward scan -/

theorem find?_range'_some {p : ℕ → Bool} {a n j : ℕ}
    (h : (List.range' a n).find? p = some j) :
    a ≤ j ∧ j < a + n ∧ p j = true ∧ ∀ k, a ≤ k → k < j → p k = false := by
  induction n generalizing a with
  | zero => simp at h
  | succ n ih =>
    rw [List.range'_succ] at h
    by_cases hpa : p a
    · rw [List.find?_cons_of_pos _ hpa] at h
      obtain rfl : a = j := by injection h
      exact ⟨le_rfl, by omega, hpa, fun k h1 h2 => absurd (le_trans h1 (le_of_lt h2)) (by omega)⟩
    · rw [List.find?_cons_of_neg _ hpa] at h
      obtain ⟨ih1, ih2, ih3, ih4⟩ := ih h
      refine ⟨by omega, by omega, ih3, fun k h1 h2 => ?_⟩
      rcases eq_or_lt_of_le h1 with rfl | hlt
      · exact Bool.eq_false_iff.mpr hpa
      · exact ih4 k hlt h2

theorem find?_range'_eq_some {p : ℕ → Bool} {a n j : ℕ} (h1 : a ≤ j) (h2 : j < a + n)
    (h3 : p j = true) (h4 : ∀ k, a ≤ k → k < j → p k = false) :
    (List.range' a n).find? p = some j := by
  induction n generalizing a with
  | zero => omega
  | succ n ih =>
    rw [List.range'_succ]
    by_cases hpa : p a
    · rw [List.find?_cons_of_pos _ hpa]
      rcases eq_or_lt_of_le h1 with rfl | hlt
      · rfl
      · rw [h4 a le_rfl hlt] at hpa; exact absurd hpa (by simp)
    · rw [List.find?_cons_of_neg _ hpa]
      have haj : a ≠ j := fun he => hpa (he ▸ h3)
      exact ih (by omega) (by omega) (fun k hk1 hk2 => h4 k (by omega) hk2)

/-- The scan's result is at least `1`. -/
theorem pyScan_pos (speeds : List ℚ) (th : ℚ) : 1 ≤ pyScan speeds th := by
  unfold pyScan
  rcases hf : (List.range' 1 (speeds.length - 1)).find?
      (fun j => decide (speeds.getD (speeds.length - j) 0 < th)) with _ | j
  · dsimp only
    split <;> omega
  · exact (find?_range'_some hf).1

/-- When the `for` range is empty (at most one speed sample), the loop body
never runs and `j` keeps its initial value `1`. -/
theorem pyScan_short (speeds : List ℚ) (th : ℚ) (hL : speeds.length ≤ 1) :
    pyScan speeds th = 1 := by
  unfold pyScan
  have : speeds.length - 1 = 0 := by omega
  rw [this]
  simp
  omega

/-- When some examined sample is below the threshold, the scan breaks at the
first (smallest backward offset, i.e. most recent) such `j`. -/
theorem pyScan_found (speeds : List ℚ) (th : ℚ) (j : ℕ) (hj : 1 ≤ j)
    (hlt : j < speeds.length)
    (hp : speeds.getD (speeds.length - j) 0 < th)
    (hmin : ∀ k, 1 ≤ k → k < j → ¬ speeds.getD (speeds.length - k) 0 < th) :
    pyScan speeds th = j := by
  unfold pyScan
  rw [find?_range'_eq_some hj (by omega) (by simpa using hp)
    (fun k h1 h2 => by simpa using hmin k h1 h2)]

/-- When the loop exhausts the range without breaking, `j` retains the final
loop value `len - 1` (the earliest sample, at backward offset `len`, is never
examined). -/
theorem pyScan_exhaust (speeds : List ℚ) (th : ℚ) (hL : 2 ≤ speeds.length)
    (h : ∀ k, 1 ≤ k → k < speeds.length → ¬ speeds.getD (speeds.length - k) 0 < th) :
    pyScan speeds th = speeds.length - 1 := by
  unfold pyScan
  have hnone : (List.range' 1 (speeds.length - 1)).find?
      (fun j => decide (speeds.getD (speeds.length - j) 0 < th)) = none := by
    rw [List.find?_eq_none]
    intro k hk
    rw [List.mem_range'_1] at hk
    simpa using h k hk.1 (by omega)
  rw [hnone]
  simp [hL]

/-- The scan's result never exceeds `len - 1` when the range is non-empty. -/
theorem pyScan_le (speeds : List ℚ) (th : ℚ) (hL : 2 ≤ speeds.length) :
    pyScan speeds th ≤ speeds.length - 1 := by
  unfold pyScan
  rcases hf : (List.range' 1 (speeds.length - 1)).find?
      (fun j => decide (speeds.getD (speeds.length - j) 0 < th)) with _ | j
  · simp [hL]
  · have := (find?_range'_some hf).2.1
    show j ≤ speeds.length - 1
    omega

/-! ## State invariants -/

/-- Length invariant at loop boundaries: the three visited sequences have
equal length, and the speed sequence is one element shorter than the
timestamp sequence (anchor from line 117 or from an exit reset) or of equal
length (anchor from a gap reset, whose fall-through gives the anchor itself
a speed sample). -/
def LenInv (s : DetState) : Prop :=
  s.sumLat.length = s.sumLon.length ∧ s.sumLon.length = s.sumT.length ∧
    (s.speeds.length + 1 = s.sumT.length ∨ s.speeds.length = s.sumT.length)

theorem lenInv_init (p : RawPoint) : LenInv (initState p) := by
  simp [LenInv, initState]

theorem lenInv_step (cfg : StopCfg) (d : Dist) (prev p : RawPoint) (s : DetState)
    (hd : ∀ la lo, d la lo la lo = 0) (hr : 0 ≤ cfg.stopRadius)
    (h : LenInv s) : LenInv (stopsStep cfg d prev p s) := by
  obtain ⟨h1, h2, h3⟩ := h
  by_cases hgap : diff_seconds prev.t p.t / 60 > cfg.noDataForMinutes
  · rw [stopsStep_gap cfg d prev p s hgap (hd p.lat p.lon) hr]
    simp [LenInv]
  · by_cases hDr : d s.lat0 s.lon0 p.lat p.lon > cfg.stopRadius
    · by_cases hDt : diff_seconds s.t0 p.t / 60 > cfg.minutesForAStop
      · rw [stopsStep_confirm cfg d prev p s hgap hDr hDt _ rfl]
        simp [LenInv]
      · rw [stopsStep_reject cfg d prev p s hgap hDr hDt]
        simp [LenInv]
    · rw [stopsStep_accept cfg d prev p s hgap hDr]
      simp only [LenInv, List.length_append, List.length_cons, List.length_nil]
      omega

theorem lenInv_loop (cfg : StopCfg) (d : Dist)
    (hd : ∀ la lo, d la lo la lo = 0) (hr : 0 ≤ cfg.stopRadius) :
    ∀ (rest : List RawPoint) (prev : RawPoint) (s : DetState),
      LenInv s → LenInv (stopsLoop cfg d prev rest s) := by
  intro rest
  induction rest with
  | nil => intro prev s h; exact h
  | cons p rest ih =>
    intro prev s h
    exact ih p (stopsStep cfg d prev p s) (lenInv_step cfg d prev p s hd hr h)

/-- The visited-timestamp sequence is never empty at a loop boundary (the
bottom of every iteration appends the current point). -/
theorem sumT_ne_nil_step (cfg : StopCfg) (d : Dist) (prev p : RawPoint) (s : DetState) :
    (stopsStep cfg d prev p s).sumT ≠ [] := by
  simp only [stopsStep, confirmStop, resetAt, appendPoint]
  split_ifs <;> simp

/-- Temporal invariant relating a live state to the raw predecessor point:
the anchor time and every visited timestamp lie at or before the
predecessor's timestamp, and at or after the anchor time. -/
def TimeInv (prev : RawPoint) (s : DetState) : Prop :=
  s.t0 ≤ prev.t ∧ ∀ x ∈ s.sumT, s.t0 ≤ x ∧ x ≤ prev.t

theorem timeInv_init (p : RawPoint) : TimeInv p (initState p) := by
  simp [TimeInv, initState]

theorem timeInv_step (cfg : StopCfg) (d : Dist) (prev p : RawPoint) (s : DetState)
    (hd : ∀ la lo, d la lo la lo = 0) (hr : 0 ≤ cfg.stopRadius)
    (h : TimeInv prev s) (hsort : prev.t ≤ p.t) :
    TimeInv p (stopsStep cfg d prev p s) := by
  obtain ⟨h1, h2⟩ := h
  by_cases hgap : diff_seconds prev.t p.t / 60 > cfg.noDataForMinutes
  · rw [stopsStep_gap cfg d prev p s hgap (hd p.lat p.lon) hr]
    simp [TimeInv]
  · by_cases hDr : d s.lat0 s.lon0 p.lat p.lon > cfg.stopRadius
    · by_cases hDt : diff_seconds s.t0 p.t / 60 > cfg.minutesForAStop
      · rw [stopsStep_confirm cfg d prev p s hgap hDr hDt _ rfl]
        simp [TimeInv]
      · rw [stopsStep_reject cfg d prev p s hgap hDr hDt]
        simp [TimeInv]
    · rw [stopsStep_accept cfg d prev p s hgap hDr]
      refine ⟨le_trans h1 hsort, ?_⟩
      intro x hx
      simp only [List.mem_append, List.mem_singleton] at hx
      rcases hx with hx | rfl
      · exact ⟨(h2 x hx).1, le_trans (h2 x hx).2 hsort⟩
      · exact ⟨le_trans h1 hsort, le_rfl⟩

/-! ## The `leaving_time` flag only gates the departure list -/

/-- The state with the departure-time list erased: everything the detection
logic itself reads or writes. -/
def core (s : DetState) : DetState := { s with leavingTimes := [] }

/-- One step with the `leaving_time` flag toggled: the cores of the
resulting states agree whenever the cores of the starting states agree
(the flag is read only when appending to `leaving_times`, line 162). -/
theorem core_step (cfg : StopCfg) (d : Dist) (b b' : Bool) (prev p : RawPoint)
    (s s' : DetState) (h : core s = core s') :
    core (stopsStep { cfg with leavingTime := b } d prev p s)
      = core (stopsStep { cfg with leavingTime := b' } d prev p s') := by
  obtain ⟨la, lo, t0, sla, slo, st, sp, c, stp, lts⟩ := s
  obtain ⟨la', lo', t0', sla', slo', st', sp', c', stp', lts'⟩ := s'
  simp only [core, DetState.mk.injEq] at h
  obtain ⟨e1, e2, e3, e4, e5, e6, e7, e8, e9, -⟩ := h
  subst e1 e2 e3 e4 e5 e6 e7 e8 e9
  simp only [stopsStep, confirmStop, resetAt, appendPoint, core]
  split_ifs <;> rfl

theorem core_loop (cfg : StopCfg) (d : Dist) (b b' : Bool) :
    ∀ (rest : List RawPoint) (prev : RawPoint) (s s' : DetState),
      core s = core s' →
      core (stopsLoop { cfg with leavingTime := b } d prev rest s)
        = core (stopsLoop { cfg with leavingTime := b' } d prev rest s') := by
  intro rest
  induction rest with
  | nil =>
    intro prev s s' h
    exact h
  | cons p rest ih =>
    intro prev s s' h
    exact ih p _ _ (core_step cfg d b b' prev p s s' h)

/-! ## Claims -/

/-- C2, counterexample.  The claim states that on a data gap the detector
"skips steps 2-4 for P entirely: in particular no speed sample is computed
or appended for P and no radius/exit test is performed on P", so the fresh
accumulator would have an empty speed sequence.  On this concrete input the
gap condition holds (elapsed 10^9/60 minutes > 60), yet after the iteration
the fresh accumulator's speed sequence is `[0]`: the loop body has no
`continue`, so a speed sample for P was computed and appended and the radius
test ran (accepting P at distance 0). -/
theorem C2_counterexample :
    (stopsStep ⟨1/5, 20, true, 60, none⟩ taxiDist ⟨0, 0, 0, []⟩ ⟨5, 5, 10^9, []⟩
        (initState ⟨0, 0, 0, []⟩)).speeds = [0] ∧
      diff_seconds (0 : ℚ) (10^9) / 60 > 60 := by
  have hg : diff_seconds (0 : ℚ) (10^9) / 60 > 60 := by
    rw [diff_seconds]; norm_num
  refine ⟨?_, hg⟩
  rw [stopsStep_gap ⟨1/5, 20, true, 60, none⟩ taxiDist ⟨0, 0, 0, []⟩ ⟨5, 5, 10^9, []⟩
    (initState ⟨0, 0, 0, []⟩) hg (by norm_num [taxiDist]) (by norm_num)]

/-- C2 (amended): on a data gap the detector discards the accumulator
without emitting anything and re-anchors at P, but does not skip steps 2-4:
it computes and appends a speed sample for P against the new anchor (P
itself), which is 0 because the elapsed time is 0, and performs the radius
test with distance d(P,P) = 0, accepting P into the new accumulator. -/
theorem C2_amended_gap_fallthrough (cfg : StopCfg) (d : Dist) (prev p : RawPoint)
    (s : DetState)
    (hgap : diff_seconds prev.t p.t / 60 > cfg.noDataForMinutes)
    (hd : d p.lat p.lon p.lat p.lon = 0)
    (hr : 0 ≤ cfg.stopRadius) :
    stopsStep cfg d prev p s =
      { s with lat0 := p.lat, lon0 := p.lon, t0 := p.t,
               sumLat := [p.lat], sumLon := [p.lon], sumT := [p.t],
               speeds := [0], countN := 1 } :=
  stopsStep_gap cfg d prev p s hgap hd hr

theorem C2_amended_gap_fallthrough_witness :
    stopsStep ⟨1/5, 20, true, 60, none⟩ taxiDist ⟨0, 0, 0, []⟩ ⟨5, 5, 10^9, []⟩
        (initState ⟨0, 0, 0, []⟩) =
      ⟨5, 5, 10^9, [5], [5], [10^9], [0], 1, [], []⟩ :=
  C2_amended_gap_fallthrough ⟨1/5, 20, true, 60, none⟩ taxiDist ⟨0, 0, 0, []⟩
    ⟨5, 5, 10^9, []⟩ (initState ⟨0, 0, 0, []⟩)
    (by rw [diff_seconds]; norm_num) (by simp [taxiDist]) (by norm_num)

/-- C5, counterexample.  The claim states the speed sequence is exactly one
element shorter than the timestamp sequence once a point after the anchor
has been examined, "including after a gap-triggered reset".  Here the second
point triggers a gap reset and the third point is accepted into the
re-anchored accumulator; the claim predicts one speed sample, but the state
holds two (the gap fall-through gave the gap point itself a 0-speed
sample), equal to the timestamp sequence's length. -/
theorem C5_counterexample :
    (stopsLoop ⟨1/5, 20, true, 60, none⟩ taxiDist ⟨0, 0, 0, []⟩
        [⟨5, 5, 10^9, []⟩, ⟨5, 51/10, 10^9 + 60, []⟩]
        (initState ⟨0, 0, 0, []⟩)).speeds.length = 2 ∧
      (stopsLoop ⟨1/5, 20, true, 60, none⟩ taxiDist ⟨0, 0, 0, []⟩
        [⟨5, 5, 10^9, []⟩, ⟨5, 51/10, 10^9 + 60, []⟩]
        (initState ⟨0, 0, 0, []⟩)).sumT.length = 2 := by
  simp only [stopsLoop]
  rw [stopsStep_gap ⟨1/5, 20, true, 60, none⟩ taxiDist ⟨0, 0, 0, []⟩ ⟨5, 5, 10^9, []⟩
    (initState ⟨0, 0, 0, []⟩) (by rw [diff_seconds]; norm_num) (by norm_num [taxiDist])
    (by norm_num)]
  rw [stopsStep_accept _ _ _ _ _ (by rw [diff_seconds]; norm_num)
    (by norm_num [taxiDist])]
  simp

/-- C5 (amended): at every loop boundary the three visited sequences have
equal length, and the speed sequence is one element shorter than the
timestamp sequence (accumulators anchored at the first point or by an exit
reset) or of equal length (accumulators anchored by a gap reset, whose
fall-through gives the anchor itself a 0 speed sample).  The invariant holds
initially and is preserved by every iteration, assuming the distance
contract `d(p,p) = 0` and a non-negative stop radius. -/
theorem C5_amended_length_invariant (cfg : StopCfg) (d : Dist)
    (hd : ∀ la lo, d la lo la lo = 0) (hr : 0 ≤ cfg.stopRadius) :
    (∀ p, LenInv (initState p)) ∧
      ∀ (rest : List RawPoint) (prev : RawPoint) (s : DetState),
        LenInv s → LenInv (stopsLoop cfg d prev rest s) :=
  ⟨lenInv_init, lenInv_loop cfg d hd hr⟩

theorem C5_amended_length_invariant_witness :
    LenInv (stopsLoop ⟨1/5, 20, true, 60, none⟩ taxiDist ⟨0, 0, 0, []⟩
      [⟨5, 5, 10^9, []⟩, ⟨5, 51/10, 10^9 + 60, []⟩]
      (initState ⟨0, 0, 0, []⟩)) := by
  have h := C5_amended_length_invariant ⟨1/5, 20, true, 60, none⟩ taxiDist
    (fun la lo => by simp [taxiDist]) (by norm_num)
  exact h.2 _ _ _ (h.1 ⟨0, 0, 0, []⟩)

/-- C6, counterexample.  The claim states the algorithm never raises "for
every input point sequence (including empty and single-point sequences)";
but on the empty sequence line 117 (`lat_lng_dtime_other[0]`) raises
`IndexError`, modelled here by `none`. -/
theorem C6_counterexample :
    stops_array ⟨1/5, 20, true, 10^12, none⟩ taxiDist [] = none := rfl

/-- C6 (amended): for every non-empty input sequence the detector returns a
result (raises nothing), and the division-by-zero edge case is defined, not
signalled: a speed sample with zero elapsed time is 0. -/
theorem C6_amended_no_raise :
    (∀ (cfg : StopCfg) (d : Dist) (pts : List RawPoint), pts ≠ [] →
        (stops_array cfg d pts).isSome = true) ∧
      ∀ Dr : ℚ, speedSample Dr 0 = 0 := by
  constructor
  · intro cfg d pts hne
    cases pts with
    | nil => exact absurd rfl hne
    | cons p rest => rfl
  · intro Dr
    simp [speedSample]

theorem C6_amended_no_raise_witness :
    (stops_array ⟨1/5, 20, true, 10^12, none⟩ taxiDist [⟨3, 4, 5, []⟩]).isSome = true :=
  C6_amended_no_raise.1 ⟨1/5, 20, true, 10^12, none⟩ taxiDist [⟨3, 4, 5, []⟩]
    (by simp)

/-- C4: every emitted StopRecord has latitude equal to the median of the
(possibly trimmed) visited latitudes, longitude equal to the median of the
(possibly trimmed) visited longitudes, arrival time equal to the anchor's
timestamp, and extra attributes copied from the raw predecessor of the
exit-triggering point (the last point accepted into the accumulator), not
from the exit-triggering point itself. -/
theorem C4_stop_record_fields (cfg : StopCfg) (d : Dist) (prev p : RawPoint)
    (s : DetState)
    (hgap : ¬ diff_seconds prev.t p.t / 60 > cfg.noDataForMinutes)
    (hDr : d s.lat0 s.lon0 p.lat p.lon > cfg.stopRadius)
    (hDt : diff_seconds s.t0 p.t / 60 > cfg.minutesForAStop)
    (r : ℚ × List ℚ × List ℚ)
    (hres : r = leavingEstimate cfg.minSpeedKmh p.t
      (s.speeds ++
        [speedSample (d s.lat0 s.lon0 p.lat p.lon) (diff_seconds s.t0 p.t / 60)])
      s.sumT s.sumLat s.sumLon)
    (hne : 0 < r.2.1.length) :
    (stopsStep cfg d prev p s).stops
      = s.stops ++ [⟨median r.2.1, median r.2.2, s.t0, prev.extra⟩] := by
  rw [stopsStep_confirm cfg d prev p s hgap hDr hDt r hres]
  simp [hne]

theorem C4_stop_record_fields_witness :
    (stopsStep ⟨1/5, 20, true, 10^12, none⟩ taxiDist ⟨0, 0, 0, [42]⟩
        ⟨10, 0, 1500, [43]⟩ (initState ⟨0, 0, 0, [42]⟩)).stops
      = [⟨0, 0, 0, [42]⟩] := by
  rw [C4_stop_record_fields ⟨1/5, 20, true, 10^12, none⟩ taxiDist ⟨0, 0, 0, [42]⟩
    ⟨10, 0, 1500, [43]⟩ (initState ⟨0, 0, 0, [42]⟩)
    (by rw [diff_seconds]; norm_num)
    (by norm_num [taxiDist, initState])
    (by rw [initState, diff_seconds]; norm_num)
    (1500, [0], [0]) rfl (by norm_num)]
  simp [median, initState, List.insertionSort, List.orderedInsert]

/-- C10: toggling `leaving_time` changes only whether the departure-time
column is attached to the output: the detected stop rows (all fields
included) are identical for both flag values, the column is absent when the
flag is false, and present when the flag is true. -/
theorem C10_leaving_time_frame (a : DetArgs) (d : Dist) (tdf : TrajDF) (b b' : Bool) :
    ((stops { a with leavingTime := b } d tdf).map StopsOutDF.rows
        = (stops { a with leavingTime := b' } d tdf).map StopsOutDF.rows)
      ∧ (∀ o, stops { a with leavingTime := false } d tdf = some o →
          o.leavingCol = none)
      ∧ (∀ o, stops { a with leavingTime := true } d tdf = some o →
          ∃ l, o.leavingCol = some l) := by
  obtain ⟨pts, params⟩ := tdf
  refine ⟨?_, ?_, ?_⟩
  · cases pts with
    | nil => simp [stops, stops_trajectory, stops_array]
    | cons p rest =>
      have hcore := core_loop
        (argsToCfg a (resolveRadius a.spatialRadiusKm params * a.stopRadiusFactor))
        d b b' rest p (initState p) (initState p) rfl
      have hstops := congrArg DetState.stops hcore
      simp only [stops, stops_trajectory, stops_array, Option.map_some,
        Option.map_map]
      exact congrArg (fun z => some z) hstops
  · intro o ho
    cases pts with
    | nil => simp [stops, stops_trajectory, stops_array] at ho
    | cons p rest =>
      simp only [stops, stops_trajectory, stops_array, Option.map_some'] at ho
      injection ho with ho2
      rw [← ho2]
      simp [argsToCfg]
  · intro o ho
    cases pts with
    | nil => simp [stops, stops_trajectory, stops_array] at ho
    | cons p rest =>
      simp only [stops, stops_trajectory, stops_array, Option.map_some'] at ho
      injection ho with ho2
      rw [← ho2]
      simp [argsToCfg]

theorem C10_leaving_time_frame_witness :
    (⟨[], none, ⟨none, some ⟨1/2, 20, 1/5, false, 10^12, none⟩⟩⟩ :
        StopsOutDF).leavingCol = none :=
  (C10_leaving_time_frame
    ⟨1/2, 20, 1/5, true, 10^12, none⟩ taxiDist ⟨[⟨3, 4, 5, []⟩], ⟨none, none⟩⟩
    true false).2.1
    ⟨[], none, ⟨none, some ⟨1/2, 20, 1/5, false, 10^12, none⟩⟩⟩ rfl

/-- C7: when `min_speed_kmh` is unset and `leaving_time` is set, the output
of `_stops_array` is exactly the specification-level segmentation: stop rows
paired 1:1, in emission order, with departure estimates, and each departure
estimate is — by construction of `specRuns` — the timestamp of the
radius-exiting point that confirmed that stop. -/
theorem C7_departure_no_min_speed (cfg : StopCfg) (d : Dist) (p : RawPoint)
    (rest : List RawPoint)
    (hms : cfg.minSpeedKmh = none) (hlt : cfg.leavingTime = true)
    (hd : ∀ la lo, d la lo la lo = 0) (hr : 0 ≤ cfg.stopRadius) :
    stops_array cfg d (p :: rest)
      = some ((specRuns cfg d p p [p.lat] [p.lon] rest).map Prod.fst,
              (specRuns cfg d p p [p.lat] [p.lon] rest).map Prod.snd) := by
  obtain ⟨h1, h2⟩ := stopsLoop_specRuns cfg d hms hd hr rest p (initState p) p
    rfl rfl rfl (by simp [initState])
  simp only [stops_array]
  rw [h1, h2]
  simp [initState, hlt]

theorem C7_departure_no_min_speed_witness :
    stops_array ⟨1/5, 20, true, 10^12, none⟩ taxiDist
        (⟨0, 0, 0, [7]⟩ :: [⟨1/10, 0, 300, [8]⟩, ⟨5, 0, 2100, [11]⟩])
      = some ((specRuns ⟨1/5, 20, true, 10^12, none⟩ taxiDist ⟨0, 0, 0, [7]⟩
                ⟨0, 0, 0, [7]⟩ [0] [0]
                [⟨1/10, 0, 300, [8]⟩, ⟨5, 0, 2100, [11]⟩]).map Prod.fst,
              (specRuns ⟨1/5, 20, true, 10^12, none⟩ taxiDist ⟨0, 0, 0, [7]⟩
                ⟨0, 0, 0, [7]⟩ [0] [0]
                [⟨1/10, 0, 300, [8]⟩, ⟨5, 0, 2100, [11]⟩]).map Prod.snd) :=
  C7_departure_no_min_speed ⟨1/5, 20, true, 10^12, none⟩ taxiDist ⟨0, 0, 0, [7]⟩
    [⟨1/10, 0, 300, [8]⟩, ⟨5, 0, 2100, [11]⟩] rfl rfl
    (fun la lo => by simp [taxiDist]) (by norm_num)

/-- C3, counterexample.  The claim requires, for an emitted stop, a maximal
run of consecutive in-radius points "whose time span strictly exceeds
minutes_for_a_stop".  Here the second point exits the radius immediately
(distance 10 > 0.2), so the only in-radius run is the singleton anchor with
time span 0, which does not exceed 20 minutes — yet a StopRecord is
emitted, because the code's duration test compares the anchor-to-exiting-
point elapsed time (25 minutes), not the accumulated run's span. -/
theorem C3_counterexample :
    stops_array ⟨1/5, 20, true, 10^12, none⟩ taxiDist
        [⟨0, 0, 0, [42]⟩, ⟨10, 0, 1500, [43]⟩]
      = some ([⟨0, 0, 0, [42]⟩], [1500]) ∧
      taxiDist 0 0 10 0 > 1/5 ∧
      ¬ diff_seconds (0 : ℚ) 0 / 60 > 20 := by
  refine ⟨?_, by norm_num [taxiDist], by rw [diff_seconds]; norm_num⟩
  simp only [stops_array, stopsLoop]
  rw [stopsStep_confirm ⟨1/5, 20, true, 10^12, none⟩ taxiDist ⟨0, 0, 0, [42]⟩
    ⟨10, 0, 1500, [43]⟩ (initState ⟨0, 0, 0, [42]⟩) (by rw [diff_seconds]; norm_num)
    (by norm_num [taxiDist, initState]) (by simp only [initState, diff_seconds]; norm_num)
    (1500, [0], [0]) rfl]
  simp [initState, median, List.insertionSort, List.orderedInsert]

/-- C3 (amended): with `min_speed_kmh` unset, a StopRecord is emitted if and
only if a run of consecutive points accumulated behind an anchor is closed
by a radius-exiting point whose elapsed time since the anchor strictly
exceeds `minutes_for_a_stop` — the duration test being anchor-to-exiting-
point elapsed time, not the accumulated run's span.  Closure by a data gap
emits nothing, and an accumulator still open when the sequence is exhausted
is discarded without emitting a final partial stop (`specRuns` returns `[]`
on an exhausted sequence).  When `min_speed_kmh` is set, emission
additionally requires the trimmed latitude list to be non-empty, which a
gap-anchored run can violate. -/
theorem C3_amended_emission_iff (cfg : StopCfg) (d : Dist) (p : RawPoint)
    (rest : List RawPoint)
    (hms : cfg.minSpeedKmh = none)
    (hd : ∀ la lo, d la lo la lo = 0) (hr : 0 ≤ cfg.stopRadius) :
    (stops_array cfg d (p :: rest)).map Prod.fst
      = some ((specRuns cfg d p p [p.lat] [p.lon] rest).map Prod.fst) := by
  obtain ⟨h1, -⟩ := stopsLoop_specRuns cfg d hms hd hr rest p (initState p) p
    rfl rfl rfl (by simp [initState])
  simp only [stops_array, Option.map_some']
  rw [h1]
  simp [initState]

theorem C3_amended_emission_iff_witness :
    (stops_array ⟨1/5, 20, true, 60, none⟩ taxiDist
        (⟨0, 0, 0, []⟩ :: [⟨5, 5, 10^9, []⟩, ⟨50, 50, 10^9 + 2100, []⟩])).map Prod.fst
      = some ((specRuns ⟨1/5, 20, true, 60, none⟩ taxiDist ⟨0, 0, 0, []⟩
          ⟨0, 0, 0, []⟩ [0] [0]
          [⟨5, 5, 10^9, []⟩, ⟨50, 50, 10^9 + 2100, []⟩]).map Prod.fst) :=
  C3_amended_emission_iff ⟨1/5, 20, true, 60, none⟩ taxiDist ⟨0, 0, 0, []⟩
    [⟨5, 5, 10^9, []⟩, ⟨50, 50, 10^9 + 2100, []⟩] rfl
    (fun la lo => by simp [taxiDist]) (by norm_num)

/-- Unfolding of the `min_speed_kmh`-set branch of `leavingEstimate`
(lines 149-159). -/
theorem leavingEstimate_some (th t : ℚ) (speeds sumT sumLat sumLon : List ℚ) :
    leavingEstimate (some th) t speeds sumT sumLat sumLon
      = if pyScan speeds th = 1 then (t, sumLat, sumLon)
        else (sumT.getD (sumT.length - pyScan speeds th) 0,
              sumLat.take (sumLat.length - pyScan speeds th),
              sumLon.take (sumLon.length - pyScan speeds th)) := rfl

/-! A concrete trajectory with `min_speed_kmh = 1` on which a stop is
confirmed while every speed sample is at or above the threshold: anchor at
the origin, two slow-but-above-threshold points, then a far exit point. -/

def msCfg : StopCfg := ⟨100, 20, true, 10^12, some 1⟩

def msq0 : RawPoint := ⟨0, 0, 0, [1]⟩

def msq1 : RawPoint := ⟨3/5, 0, 1800, [2]⟩

def msq2 : RawPoint := ⟨2, 0, 3600, [3]⟩

def msq3 : RawPoint := ⟨200, 0, 5400, [4]⟩

def msS1 : DetState := ⟨0, 0, 0, [0, 3/5], [0, 0], [0, 1800], [6/5], 2, [], []⟩

def msS2 : DetState :=
  ⟨0, 0, 0, [0, 3/5, 2], [0, 0, 0], [0, 1800, 3600], [6/5, 2], 3, [], []⟩

def msS3 : DetState :=
  ⟨200, 0, 5400, [200], [0], [5400], [], 1, [⟨0, 0, 0, [3]⟩], [1800]⟩

theorem msStep1 : stopsStep msCfg taxiDist msq0 msq1 (initState msq0) = msS1 := by
  rw [stopsStep_accept msCfg taxiDist msq0 msq1 (initState msq0)
    (by rw [msq0, msq1, msCfg, diff_seconds]; norm_num)
    (by rw [initState, msq0, msq1, msCfg]; norm_num [taxiDist])]
  rw [initState, msq0, msq1, msS1]
  norm_num [speedSample, diff_seconds, taxiDist, DetState.mk.injEq]

theorem msStep2 : stopsStep msCfg taxiDist msq1 msq2 msS1 = msS2 := by
  rw [stopsStep_accept msCfg taxiDist msq1 msq2 msS1
    (by rw [msq1, msq2, msCfg, diff_seconds]; norm_num)
    (by rw [msS1, msq2, msCfg]; norm_num [taxiDist])]
  rw [msS1, msq2, msS2]
  norm_num [speedSample, diff_seconds, taxiDist, DetState.mk.injEq]

/-- The speed sequence examined by the backward scan at the confirming exit:
the accumulated samples plus the exit point's own sample. -/
theorem msSpeedsFull :
    msS2.speeds ++
        [speedSample (taxiDist msS2.lat0 msS2.lon0 msq3.lat msq3.lon)
          (diff_seconds msS2.t0 msq3.t / 60)]
      = [6/5, 2, 400/3] := by
  rw [msS2, msq3]
  norm_num [speedSample, taxiDist, diff_seconds]

theorem msScan : pyScan [6/5, 2, 400/3] 1 = 2 := by
  have h := pyScan_exhaust [(6 : ℚ)/5, 2, 400/3] 1 (by norm_num)
    (by intro k h1 h2
        simp only [List.length_cons, List.length_nil] at h2
        have hk : k = 1 ∨ k = 2 := by omega
        rcases hk with rfl | rfl <;> norm_num [List.getD])
  simpa using h

theorem msEstimate :
    leavingEstimate msCfg.minSpeedKmh msq3.t
        (msS2.speeds ++
          [speedSample (taxiDist msS2.lat0 msS2.lon0 msq3.lat msq3.lon)
            (diff_seconds msS2.t0 msq3.t / 60)])
        msS2.sumT msS2.sumLat msS2.sumLon
      = (1800, [0], [0]) := by
  rw [msSpeedsFull, show msCfg.minSpeedKmh = some 1 from rfl,
    leavingEstimate_some, msScan, if_neg (by norm_num)]
  rw [msS2]
  norm_num [List.getD]

theorem msStep3 : stopsStep msCfg taxiDist msq2 msq3 msS2 = msS3 := by
  rw [stopsStep_confirm msCfg taxiDist msq2 msq3 msS2
    (by rw [msq2, msq3, msCfg, diff_seconds]; norm_num)
    (by rw [msS2, msq3, msCfg]; norm_num [taxiDist])
    (by rw [msS2, msq3, msCfg, diff_seconds]; norm_num)
    (1800, [0], [0]) msEstimate.symm]
  rw [msS2, msq2, msq3, msS3, msCfg]
  norm_num [median, List.insertionSort, List.orderedInsert, DetState.mk.injEq]

/-- C1, counterexample.  The claim states that "if no sample below the
threshold exists anywhere in the speed sequence, the departure time is P's
own timestamp and no trimming occurs".  On this input every sample of the
confirmed stop's speed sequence `[6/5, 2, 400/3]` is at or above the
threshold `min_speed_kmh = 1`, yet the emitted departure time is `1800`
(the timestamp two positions from the end of the time sequence), not the
exit point's timestamp `5400`, and the last two visited points are trimmed
(the emitted median latitude is `0`, the median of `[0]`, not of
`[0, 3/5, 2]`): Python's scan loop leaves `j = len(speeds)-1 = 2` when it
exhausts `range(1, len(speeds))` without breaking, and the code then treats
`j` as a found offset. -/
theorem C1_counterexample :
    stops_array msCfg taxiDist [msq0, msq1, msq2, msq3]
        = some ([⟨0, 0, 0, [3]⟩], [1800]) ∧
      msCfg.minSpeedKmh = some 1 ∧
      msS2.speeds ++
          [speedSample (taxiDist msS2.lat0 msS2.lon0 msq3.lat msq3.lon)
            (diff_seconds msS2.t0 msq3.t / 60)]
        = [6/5, 2, 400/3] ∧
      ((1 : ℚ) ≤ 6/5 ∧ (1 : ℚ) ≤ 2 ∧ (1 : ℚ) ≤ 400/3) ∧
      msq3.t = 5400 ∧ (1800 : ℚ) ≠ 5400 := by
  refine ⟨?_, rfl, msSpeedsFull, by norm_num, rfl, by norm_num⟩
  simp only [stops_array, stopsLoop]
  rw [msStep1, msStep2, msStep3, msS3]

/-- C1 (amended): with `min_speed_kmh` set to a threshold, the departure
time and trimming for a confirmed stop are produced by a scan that examines
backward offsets `j = 1, ..., len(speeds)-1` only (the earliest sample is
never examined).  If the scan's final `j` is `1` — because the most recent
sample is strictly below the threshold, or because the speed sequence has
at most two samples — the departure time is P's timestamp and no trimming
occurs.  If the scan first finds a below-threshold sample at offset
`j ≥ 2`, the departure time is the timestamp `j` positions from the end of
the time sequence and the last `j` latitude/longitude entries are trimmed.
If the scan exhausts the range with at least three samples and no examined
sample below the threshold, the code behaves as if it had found one at
offset `len(speeds)-1`: departure `len-1` positions from the end, and
`len-1` entries trimmed. -/
theorem C1_amended_scan (th t : ℚ) (speeds sumT sumLat sumLon : List ℚ) :
    ((speeds.length ≤ 2 ∨ speeds.getD (speeds.length - 1) 0 < th) →
        leavingEstimate (some th) t speeds sumT sumLat sumLon = (t, sumLat, sumLon))
      ∧ (∀ j, 2 ≤ j → j < speeds.length →
          speeds.getD (speeds.length - j) 0 < th →
          (∀ k, 1 ≤ k → k < j → ¬ speeds.getD (speeds.length - k) 0 < th) →
          leavingEstimate (some th) t speeds sumT sumLat sumLon
            = (sumT.getD (sumT.length - j) 0,
               sumLat.take (sumLat.length - j), sumLon.take (sumLon.length - j)))
      ∧ (3 ≤ speeds.length →
          (∀ k, 1 ≤ k → k < speeds.length →
            ¬ speeds.getD (speeds.length - k) 0 < th) →
          leavingEstimate (some th) t speeds sumT sumLat sumLon
            = (sumT.getD (sumT.length - (speeds.length - 1)) 0,
               sumLat.take (sumLat.length - (speeds.length - 1)),
               sumLon.take (sumLon.length - (speeds.length - 1)))) := by
  refine ⟨?_, ?_, ?_⟩
  · intro h
    have hj : pyScan speeds th = 1 := by
      rcases Nat.lt_or_ge speeds.length 2 with h2 | h2
      · exact pyScan_short speeds th (by omega)
      · rcases h with hL | hb
        · have hL2 : speeds.length = 2 := by omega
          by_cases hbb : speeds.getD (speeds.length - 1) 0 < th
          · exact pyScan_found speeds th 1 le_rfl (by omega) hbb
              (fun k h1 h2 => by omega)
          · have h3 := pyScan_exhaust speeds th h2
              (by intro k hk1 hk2
                  have : k = 1 := by omega
                  rw [this]
                  exact hbb)
            rw [h3, hL2]
        · exact pyScan_found speeds th 1 le_rfl (by omega) hb
            (fun k h1 h2 => by omega)
    rw [leavingEstimate_some, hj, if_pos rfl]
  · intro j hj2 hjL hb hmin
    have hj : pyScan speeds th = j := pyScan_found speeds th j (by omega) hjL hb hmin
    rw [leavingEstimate_some, hj, if_neg (by omega)]
  · intro hL3 hnone
    have hj : pyScan speeds th = speeds.length - 1 :=
      pyScan_exhaust speeds th (by omega) hnone
    rw [leavingEstimate_some, hj, if_neg (by omega)]

theorem C1_amended_scan_witness :
    leavingEstimate (some 1) 99 [2, 1/2, 3] [10, 20, 30] [7, 8, 9] [4, 5, 6]
      = (20, [7], [4]) := by
  have h := (C1_amended_scan 1 99 [2, 1/2, 3] [10, 20, 30] [7, 8, 9] [4, 5, 6]).2.1
    2 le_rfl (by norm_num) (by norm_num [List.getD])
    (by intro k h1 h2
        interval_cases k
        norm_num [List.getD])
  rw [h]
  norm_num [List.getD]

/-- C8: with `min_speed_kmh` set, on inputs with non-decreasing timestamps,
every emitted stop's departure estimate lies between the stop's arrival time
(the anchor's timestamp) and the timestamp of the exit point that confirmed
it.  Stated as: the temporal invariant holds initially, is preserved by
every iteration, and whenever an iteration appends a departure estimate and
its stop record, the estimate is bounded by the record's arrival time below
and the exit point's timestamp above. -/
theorem C8_departure_bounds (cfg : StopCfg) (d : Dist) (th : ℚ)
    (hms : cfg.minSpeedKmh = some th)
    (hd : ∀ la lo, d la lo la lo = 0) (hr : 0 ≤ cfg.stopRadius) :
    (∀ p, TimeInv p (initState p))
      ∧ (∀ prev p s, TimeInv prev s → prev.t ≤ p.t →
          TimeInv p (stopsStep cfg d prev p s))
      ∧ ∀ prev p s ℓ st, TimeInv prev s → prev.t ≤ p.t → s.sumT ≠ [] →
          (stopsStep cfg d prev p s).leavingTimes = s.leavingTimes ++ [ℓ] →
          (stopsStep cfg d prev p s).stops = s.stops ++ [st] →
          st.arrival ≤ ℓ ∧ ℓ ≤ p.t := by
  refine ⟨timeInv_init,
    fun prev p s h hs => timeInv_step cfg d prev p s hd hr h hs, ?_⟩
  intro prev p s ℓ st hinv hsort hsT hlts hstops
  by_cases hgap : diff_seconds prev.t p.t / 60 > cfg.noDataForMinutes
  · rw [stopsStep_gap cfg d prev p s hgap (hd p.lat p.lon) hr] at hlts
    simp at hlts
  · by_cases hDr : d s.lat0 s.lon0 p.lat p.lon > cfg.stopRadius
    · by_cases hDt : diff_seconds s.t0 p.t / 60 > cfg.minutesForAStop
      · rw [stopsStep_confirm cfg d prev p s hgap hDr hDt _ rfl] at hlts hstops
        simp only at hlts hstops
        split_ifs at hlts hstops with h1 h2
        · have hl : ℓ = (leavingEstimate cfg.minSpeedKmh p.t
              (s.speeds ++
                [speedSample (d s.lat0 s.lon0 p.lat p.lon)
                  (diff_seconds s.t0 p.t / 60)])
              s.sumT s.sumLat s.sumLon).1 := by
            have := List.append_cancel_left hlts
            simp only [List.cons.injEq] at this
            exact this.1.symm
          have hst : st.arrival = s.t0 := by
            have := List.append_cancel_left hstops
            simp only [List.cons.injEq] at this
            rw [← this.1]
          rw [hl, hst, hms, leavingEstimate_some]
          by_cases hj1 : pyScan (s.speeds ++
              [speedSample (d s.lat0 s.lon0 p.lat p.lon)
                (diff_seconds s.t0 p.t / 60)]) th = 1
          · rw [if_pos hj1]
            exact ⟨le_trans hinv.1 hsort, le_rfl⟩
          · rw [if_neg hj1]
            have hlen : 0 < s.sumT.length := List.length_pos.mpr hsT
            have hjpos := pyScan_pos (s.speeds ++
              [speedSample (d s.lat0 s.lon0 p.lat p.lon)
                (diff_seconds s.t0 p.t / 60)]) th
            have hidx : s.sumT.length - pyScan (s.speeds ++
                [speedSample (d s.lat0 s.lon0 p.lat p.lon)
                  (diff_seconds s.t0 p.t / 60)]) th < s.sumT.length := by
              omega
            rw [List.getD_eq_getElem s.sumT 0 hidx]
            have hmem := List.getElem_mem hidx
            exact ⟨(hinv.2 _ hmem).1, le_trans (hinv.2 _ hmem).2 hsort⟩
        · simp at hlts
        · simp at hlts
      · rw [stopsStep_reject cfg d prev p s hgap hDr hDt] at hlts
        simp at hlts
    · rw [stopsStep_accept cfg d prev p s hgap hDr] at hlts
      simp at hlts

theorem C8_departure_bounds_witness :
    (⟨0, 0, 0, [3]⟩ : StopRec).arrival ≤ 1800 ∧ (1800 : ℚ) ≤ msq3.t := by
  refine (C8_departure_bounds msCfg taxiDist 1 rfl
    (fun la lo => by simp [taxiDist]) (by rw [msCfg]; norm_num)).2.2
    msq2 msq3 msS2 1800 ⟨0, 0, 0, [3]⟩ ?_ ?_ ?_ ?_ ?_
  · constructor
    · rw [msS2, msq2]; norm_num
    · intro x hx
      rw [msS2] at hx
      simp only at hx
      fin_cases hx <;> rw [msS2, msq2] <;> norm_num
  · rw [msq2, msq3]; norm_num
  · rw [msS2]; simp
  · rw [msStep3, msS3, msS2]; rfl
  · rw [msStep3, msS3, msS2]; rfl

/-- C9: the stop radius handed to the core detector is the upstream-recorded
compression radius when present, otherwise the explicitly supplied
`spatial_radius_km`, multiplied by `stop_radius_factor`; and the effective
call arguments are attached to the output as `DETECTION_PARAMS` provenance
metadata, with prior parameters carried over. -/
theorem C9_radius_resolution (a : DetArgs) (d : Dist) (tdf : TrajDF) :
    (∀ r, tdf.params.compressionRadius = some r →
        stops a d tdf
          = (stops_trajectory (argsToCfg a (r * a.stopRadiusFactor)) d
              tdf.points).map
            (fun o => ⟨o.rows, o.leavingCol,
              { tdf.params with detection := some a }⟩))
      ∧ (tdf.params.compressionRadius = none →
        stops a d tdf
          = (stops_trajectory (argsToCfg a (a.spatialRadiusKm * a.stopRadiusFactor))
              d tdf.points).map
            (fun o => ⟨o.rows, o.leavingCol,
              { tdf.params with detection := some a }⟩))
      ∧ ∀ o, stops a d tdf = some o →
          o.params.detection = some a
            ∧ o.params.compressionRadius = tdf.params.compressionRadius := by
  refine ⟨?_, ?_, ?_⟩
  · intro r hrc
    simp [stops, resolveRadius, hrc]
  · intro hrc
    simp [stops, resolveRadius, hrc]
  · intro o ho
    simp only [stops] at ho
    rcases hst : stops_trajectory
        (argsToCfg a (resolveRadius a.spatialRadiusKm tdf.params * a.stopRadiusFactor))
        d tdf.points with _ | w
    · rw [hst] at ho
      simp at ho
    · rw [hst] at ho
      simp only [Option.map_some'] at ho
      injection ho with ho2
      rw [← ho2]
      exact ⟨rfl, rfl⟩

theorem C9_radius_resolution_witness :
    stops ⟨1/2, 20, 1/5, true, 10^12, none⟩ taxiDist
        ⟨[⟨3, 4, 5, []⟩], ⟨some (3/10), none⟩⟩
      = (stops_trajectory
          (argsToCfg ⟨1/2, 20, 1/5, true, 10^12, none⟩ (3/10 * (1/2))) taxiDist
          [⟨3, 4, 5, []⟩]).map
        (fun o => ⟨o.rows, o.leavingCol,
          { (⟨some (3/10), none⟩ : TrajParams) with
            detection := some ⟨1/2, 20, 1/5, true, 10^12, none⟩ }⟩) :=
  (C9_radius_resolution ⟨1/2, 20, 1/5, true, 10^12, none⟩ taxiDist
    ⟨[⟨3, 4, 5, []⟩], ⟨some (3/10), none⟩⟩).1 (3/10) rfl

end SkmobDetection
